import Mathlib

/-!
Verification of the HN summarizer's core loop against its natural-language
specification.  The repository has two pipeline variants: a file-based one
(`index.js`, `feedback-server` file variant) and a store-backed one
(a main script talking to `db.js` over Postgres, plus `feedback-server.js`).
We shallowly embed the relevant functions of both variants: database tables
become lists of rows, `Date.now()` becomes an explicit `now : Int` parameter,
and fallible store calls take an explicit success/failure flag where the
JavaScript catches errors internally.
-/

namespace HNSum

/-- One Hacker News story as returned by the Algolia search API, restricted to
the fields the digest pipeline reads. -/
structure Story where
  objectID : String
  title : String
  url : Option String
  points : Int
  deriving DecidableEq

/-- One row of the `processed_stories` table: `(story_id, processed_at)`. -/
abbrev MarkerRow := String × Int

/-- One row of the `feedback_history` table. -/
structure FeedbackRow where
  storyId : String
  title : String
  url : String
  rating : String
  createdAt : Int
  deriving DecidableEq

/-- One entry of the in-memory feedback structure built by `loadFeedback`. -/
structure FeedbackItem where
  storyId : String
  title : String
  url : String
  timestamp : Int
  deriving DecidableEq

/-- The in-memory feedback structure `{ positive: [...], negative: [...] }`. -/
structure Feedback where
  positive : List FeedbackItem
  negative : List FeedbackItem
  deriving DecidableEq

/-- Row-to-item conversion performed inside `loadFeedback` (db.js). -/
def feedbackItemOfRow (r : FeedbackRow) : FeedbackItem :=
  ⟨r.storyId, r.title, r.url, r.createdAt⟩

/-- One row of the `interests` table: `(interest, created_at)`. -/
abbrev InterestRow := String × Int

namespace Db

/-- Embedding of `markStoryAsProcessed` (db.js): `INSERT INTO processed_stories
... ON CONFLICT (story_id) DO NOTHING`.  A row is appended only when no row with
the same `story_id` exists; an existing row is left untouched (its timestamp is
not updated). -/
def markStoryAsProcessed (now : Int) (storyId : String) (tbl : List MarkerRow) :
    List MarkerRow :=
  if tbl.any (fun r => r.1 == storyId) then tbl else tbl ++ [(storyId, now)]

/-- Embedding of `cleanupOldEntries` (db.js): `DELETE FROM processed_stories
WHERE processed_at < now - expiryDays*24*60*60*1000`.  The JavaScript function
logs `result.rowCount` but returns `undefined`; the second component of the
result models that return value, hence it is always `none`. -/
def cleanupOldEntries (now : Int) (expiryDays : Nat) (tbl : List MarkerRow) :
    List MarkerRow × Option Nat :=
  let expiryTime : Int := now - (expiryDays : Int) * (24 * 60 * 60 * 1000)
  (tbl.filter (fun r => !(decide (r.2 < expiryTime))), none)

/-- Body of the `forEach` in `loadFeedback` (db.js): push the row onto
`positive` or `negative` according to `rating`; a row with any other rating is
pushed nowhere. -/
def loadFeedbackStep (fb : Feedback) (r : FeedbackRow) : Feedback :=
  if r.rating == "positive" then
    { fb with positive := fb.positive ++ [feedbackItemOfRow r] }
  else if r.rating == "negative" then
    { fb with negative := fb.negative ++ [feedbackItemOfRow r] }
  else fb

/-- Embedding of `loadFeedback` (db.js): the rows, already ordered by
`created_at ASC` by the query, are folded through `loadFeedbackStep` starting
from the empty structure. -/
def loadFeedback (rows : List FeedbackRow) : Feedback :=
  rows.foldl loadFeedbackStep ⟨[], []⟩

/-- Embedding of `saveFeedback` (db.js): a single `INSERT` into
`feedback_history`.  `insertOk = false` models a store error during the insert;
the JavaScript catches the error and returns normally, so the call never fails
from the caller's point of view — the row is simply not written. -/
def saveFeedback (now : Int) (insertOk : Bool)
    (storyId title url rating : String) (tbl : List FeedbackRow) :
    List FeedbackRow :=
  if insertOk then tbl ++ [⟨storyId, title, url, rating, now⟩] else tbl

/-- Transaction steps issued by `saveInterests` (db.js) between `BEGIN` and
`COMMIT`, acting on the transaction-local view of the `interests` table: first
`DELETE FROM interests`, then one `INSERT` per new term. -/
def saveInterestsSteps (now : Int) (interests : List String) :
    List (List InterestRow → List InterestRow) :=
  (fun _ => []) :: interests.map (fun t work => work ++ [(t, now)])

/-- Postgres transaction semantics for `saveInterests`: the steps run on a
working view seeded with the committed table; `failAt = some i` makes the i-th
step raise (the step after the last one being `COMMIT` itself), which triggers
the `ROLLBACK` branch of the JavaScript, discarding the working view.  Returns
the committed table afterwards and whether the call succeeded. -/
def runTransaction (committed : List InterestRow) (failAt : Option Nat) :
    Nat → List (List InterestRow → List InterestRow) → List InterestRow →
    List InterestRow × Bool
  | i, [], work => if failAt = some i then (committed, false) else (work, true)
  | i, step :: rest, work =>
    if failAt = some i then (committed, false)
    else runTransaction committed failAt (i + 1) rest (step work)

/-- Embedding of `saveInterests` (db.js): `BEGIN`; `DELETE FROM interests`; one
`INSERT` per term; `COMMIT`; with `ROLLBACK` on any error. -/
def saveInterests (now : Int) (failAt : Option Nat) (interests : List String)
    (committed : List InterestRow) : List InterestRow × Bool :=
  runTransaction committed failAt 0 (saveInterestsSteps now interests) committed

end Db

/-- Numbered example lines produced by `formatFeedbackExamples` in both
variants: item `i` (0-based) becomes the line `i+1. "title"` followed by a
newline. -/
def exampleLines (items : List FeedbackItem) : List String :=
  items.enum.map (fun p => toString (p.1 + 1) ++ ". \"" ++ p.2.title ++ "\"\n")

/-- Header plus example lines for the RELEVANT section of the prompt. -/
def relevantSection (items : List FeedbackItem) : String :=
  "\n\nExamples of stories the user found RELEVANT:\n" ++
    String.join (exampleLines items)

/-- Header plus example lines for the NOT RELEVANT section of the prompt. -/
def notRelevantSection (items : List FeedbackItem) : String :=
  "\n\nExamples of stories the user found NOT RELEVANT:\n" ++
    String.join (exampleLines items)

/-- Embedding of `feedback.positive.slice(-5)` in the file-based
`formatFeedbackExamples` (index.js): the last five elements, or the whole list
when it has fewer than five. -/
def lastFive (l : List FeedbackItem) : List FeedbackItem :=
  l.drop (l.length - 5)

namespace FileBased

/-- Embedding of `formatFeedbackExamples` (index.js, file-based variant): each
nonempty feedback list contributes a section built from its last five
entries. -/
def formatFeedbackExamples (fb : Feedback) : String :=
  (if fb.positive.length > 0 then relevantSection (lastFive fb.positive) else "")
    ++
  (if fb.negative.length > 0 then notRelevantSection (lastFive fb.negative) else "")

end FileBased

namespace StoreBacked

/-- Embedding of `formatFeedbackExamples` (store-backed main script): each
nonempty feedback list contributes a section built from ALL of its entries —
this variant has no `slice(-5)`. -/
def formatFeedbackExamples (fb : Feedback) : String :=
  (if fb.positive.length > 0 then relevantSection fb.positive else "")
    ++
  (if fb.negative.length > 0 then notRelevantSection fb.negative else "")

end StoreBacked

/-! Oracle-verdict parsing (`checkRelevance`, identical in both variants):
`answer = content.trim(); isRelevant = answer.toUpperCase().startsWith('YES')`.
We work on the character-list view of JavaScript strings so that the string
operations are transparent: `trim` drops whitespace at both ends, `toUpperCase`
maps `Char.toUpper`, and `startsWith` is a prefix test. -/

/-- Whitespace trimming as performed by `String.prototype.trim`, on the
character-list view of a string. -/
def trimChars (l : List Char) : List Char :=
  ((l.dropWhile Char.isWhitespace).reverse.dropWhile Char.isWhitespace).reverse

/-- Character-wise uppercasing, the character-list view of `toUpperCase`. -/
def toUpperChars (l : List Char) : List Char := l.map Char.toUpper

/-- Embedding of the verdict parsing in `checkRelevance`: the answer is the
trimmed oracle output, `accepted` is the `startsWith('YES')` test on its
uppercased form, and the answer itself is returned as the reason. -/
def checkRelevanceVerdict (content : List Char) : Bool × List Char :=
  let answer := trimChars content
  ((['Y', 'E', 'S']).isPrefixOf (toUpperChars answer), answer)

/-- Modelled from the spec: the first whitespace-delimited token of the
oracle's answer, the notion the spec's YES/NO contract is phrased in. -/
def firstTokenChars (l : List Char) : List Char :=
  (trimChars l).takeWhile (fun c => !c.isWhitespace)

/-! The store-backed main script (deduplication, quota loop). -/

namespace StoreBacked

/-- Truthiness of `processedStories[story.objectID]` in JavaScript: a missing
key is falsy and a numeric timestamp is falsy exactly when it is `0`. -/
def markerTruthy : Option Int → Bool
  | none => false
  | some v => !(v == 0)

/-- Lookup in the id-to-timestamp mapping returned by `loadProcessedStories`. -/
def lookupMarker (markers : List MarkerRow) (sid : String) : Option Int :=
  (markers.find? (fun r => r.1 == sid)).map (fun r => r.2)

/-- Embedding of the deduplication gate in `main`:
`allStories.filter(story => !processedStories[story.objectID])`. -/
def dedupeFilter (markers : List MarkerRow) (stories : List Story) :
    List Story :=
  stories.filter (fun s => !(markerTruthy (lookupMarker markers s.objectID)))

/-- Modelled from the spec: `config.maxRelevantStories`, the accept quota that
the store-backed main script reads from its config module; that module is not
part of the repository snapshot, and the spec fixes the default quota at 10. -/
def maxRelevantStories : Nat := 10

/-- Embedding of the classify-until-quota loop of the store-backed `main`:
stories are visited in order; at the top of each iteration the loop breaks when
the accepted count has reached the quota; otherwise the story is classified,
appended to the digest (and enriched) when accepted, and marked processed
through `Db.markStoryAsProcessed` whether accepted or not.  The accepted list
is exactly the list of enriched digest entries. -/
def processLoop (classify : Story → Bool) (quota : Nat) (now : Int) :
    List Story → List Story → List MarkerRow → List Story × List MarkerRow
  | [], accepted, markers => (accepted, markers)
  | s :: rest, accepted, markers =>
    if quota ≤ accepted.length then (accepted, markers)
    else
      processLoop classify quota now rest
        (if classify s then accepted ++ [s] else accepted)
        (Db.markStoryAsProcessed now s.objectID markers)

end StoreBacked

/-! The always-on feedback server (`feedback-server.js`, store-backed). -/

namespace Server

/-- Query parameters of `GET /feedback`; a missing parameter is `none`. -/
structure FeedbackQuery where
  story : Option String
  rating : Option String
  title : Option String
  url : Option String

/-- Truthiness of a possibly-missing string query parameter in JavaScript: a
missing parameter is falsy, and a present one is falsy exactly when empty. -/
def paramTruthy : Option String → Bool
  | none => false
  | some s => !(s == "")

/-- The JavaScript `x || d` defaulting pattern for string parameters. -/
def orDefault (v : Option String) (d : String) : String :=
  if paramTruthy v then v.getD "" else d

/-- Responses of `GET /feedback`, abstracting the response bodies: the two
400 rejections and the 200 "Thanks for your feedback!" success page. -/
inductive FeedbackResponse
  | missingParams
  | invalidRating
  | thanks (positive : Bool)
  deriving DecidableEq

/-- HTTP status code of each response. -/
def FeedbackResponse.status : FeedbackResponse → Nat
  | .missingParams => 400
  | .invalidRating => 400
  | .thanks _ => 200

/-- Embedding of the `GET /feedback` handler (feedback-server.js): reject when
`story` or `rating` is falsy; reject a rating other than positive/negative;
otherwise write through `Db.saveFeedback` (which swallows store errors —
`insertOk` injects one) and send the success page.  `decode` stands for
`decodeURIComponent`. -/
def handleFeedback (now : Int) (insertOk : Bool) (decode : String → String)
    (q : FeedbackQuery) (tbl : List FeedbackRow) :
    FeedbackResponse × List FeedbackRow :=
  if !(paramTruthy q.story) || !(paramTruthy q.rating) then
    (.missingParams, tbl)
  else if !(["positive", "negative"].contains (q.rating.getD "")) then
    (.invalidRating, tbl)
  else
    (.thanks (q.rating.getD "" == "positive"),
     Db.saveFeedback now insertOk (q.story.getD "")
       (decode (orDefault q.title "Unknown")) (decode (orDefault q.url ""))
       (q.rating.getD "") tbl)

/-- Embedding of `GET /health` (feedback-server.js): reports the lengths of
the two lists returned by `Db.loadFeedback`. -/
def healthCounts (rows : List FeedbackRow) : Nat × Nat :=
  ((Db.loadFeedback rows).positive.length, (Db.loadFeedback rows).negative.length)

end Server

/-! Concrete data used by witnesses and counterexamples. -/

/-- Twenty distinct candidate stories, all of which the scripted classifier
accepts: the quota-stop scenario of the spec. -/
def c1Stories : List Story :=
  (List.range 20).map (fun i => ⟨toString i, "t", none, 0⟩)

/-- Seven positive feedback records with ascending creation times and distinct
titles, and no negative records: the feedback-window scenario of the spec. -/
def c2Feedback : Feedback :=
  ⟨(List.range 7).map (fun i => ⟨toString i, "T" ++ toString i, "", (i : Int)⟩), []⟩

/-- Candidates A, B, C of the deduplication scenario of the spec. -/
def c7Stories : List Story :=
  [⟨"A", "a", none, 0⟩, ⟨"B", "b", none, 0⟩, ⟨"C", "c", none, 0⟩]

/-- Live markers for A and B in the deduplication scenario of the spec. -/
def c7Markers : List MarkerRow := [("A", 100), ("B", 200)]

/-! Helper lemmas shared by the claim theorems. -/

theorem isPrefixOf_iff_prefixHN : ∀ l₁ l₂ : List Char,
    l₁.isPrefixOf l₂ = true ↔ l₁ <+: l₂
  | [], l₂ => by simp
  | a :: as, [] => by simp
  | a :: as, b :: bs => by
    rw [List.isPrefixOf_cons₂, List.cons_prefix_cons, Bool.and_eq_true,
      beq_iff_eq, isPrefixOf_iff_prefixHN as bs]

theorem markStoryAsProcessed_of_fresh (now : Int) (sid : String)
    (tbl : List MarkerRow) (h : ∀ r ∈ tbl, r.1 ≠ sid) :
    Db.markStoryAsProcessed now sid tbl = tbl ++ [(sid, now)] := by
  have hany : tbl.any (fun r => r.1 == sid) = false := by
    simp only [List.any_eq_false, beq_iff_eq]
    exact h
  simp [Db.markStoryAsProcessed, hany]

theorem markStoryAsProcessed_of_present (now : Int) (sid : String)
    (tbl : List MarkerRow) (h : ∃ r ∈ tbl, r.1 = sid) :
    Db.markStoryAsProcessed now sid tbl = tbl := by
  have hany : tbl.any (fun r => r.1 == sid) = true := by
    simp only [List.any_eq_true, beq_iff_eq]
    exact h
  simp [Db.markStoryAsProcessed, hany]

/-! Claim C4 — idempotence of markProcessed. -/

/-- C4 (amended): over a store that holds no marker for the id yet, calling
`markStoryAsProcessed` twice leaves exactly one marker for the id and its
timestamp is the first call's time; over a store that already holds a marker
for the id, both calls leave the store unchanged (the existing timestamp is
never updated). -/
theorem markProcessed_idempotent (tbl : List MarkerRow) (sid : String)
    (t1 t2 : Int) :
    ((∀ r ∈ tbl, r.1 ≠ sid) →
      Db.markStoryAsProcessed t2 sid (Db.markStoryAsProcessed t1 sid tbl) =
        tbl ++ [(sid, t1)] ∧
      (Db.markStoryAsProcessed t2 sid
          (Db.markStoryAsProcessed t1 sid tbl)).filter (fun r => r.1 == sid) =
        [(sid, t1)]) ∧
    ((∃ r ∈ tbl, r.1 = sid) →
      Db.markStoryAsProcessed t2 sid (Db.markStoryAsProcessed t1 sid tbl) =
        tbl) := by
  constructor
  · intro h
    have h1 := markStoryAsProcessed_of_fresh t1 sid tbl h
    have h2 : Db.markStoryAsProcessed t2 sid (tbl ++ [(sid, t1)]) =
        tbl ++ [(sid, t1)] :=
      markStoryAsProcessed_of_present t2 sid _ ⟨(sid, t1), by simp, rfl⟩
    refine ⟨by rw [h1, h2], ?_⟩
    rw [h1, h2, List.filter_append]
    have hnil : tbl.filter (fun r => r.1 == sid) = [] := by
      simp only [List.filter_eq_nil_iff, beq_iff_eq]
      exact h
    rw [hnil]
    simp
  · intro h
    have h1 := markStoryAsProcessed_of_present t1 sid tbl h
    rw [h1, markStoryAsProcessed_of_present t2 sid tbl h]

/-- C4 counterexample: over a store that already holds the marker `("S", 5)`,
two `markStoryAsProcessed` calls at times 10 and 20 leave the timestamp 5 — not
the time of the first of the two calls — so the claim's "for every store state
the marker's timestamp equals the time of the first call" is false. -/
theorem markProcessed_claim_cex :
    Db.markStoryAsProcessed 20 "S" (Db.markStoryAsProcessed 10 "S" [("S", 5)]) =
      [("S", 5)] ∧
    ((5 : Int) ≠ 10) := by
  refine ⟨by decide, by decide⟩

/-- C4 witness: the amended theorem applied to the empty store. -/
theorem markProcessed_idempotent_witness :
    (∀ r ∈ ([] : List MarkerRow), r.1 ≠ "S") ∧
    (Db.markStoryAsProcessed 20 "S" (Db.markStoryAsProcessed 10 "S" []) =
        [] ++ [("S", 10)] ∧
      (Db.markStoryAsProcessed 20 "S"
          (Db.markStoryAsProcessed 10 "S" [])).filter (fun r => r.1 == "S") =
        [("S", 10)]) :=
  ⟨by decide, (markProcessed_idempotent [] "S" 10 20).1 (by decide)⟩

/-! Claim C5 — marker expiry. -/

/-- C5 (amended): `cleanupOldEntries` deletes exactly the markers whose
`processed_at` is older than `now` minus the window in milliseconds — a marker
8 days old is removed by a 7-day purge and a marker 6 days old is retained —
but the removed count is only logged, not returned: the call's return value is
always `none` (undefined). -/
theorem purgeExpired_spec :
    (∀ (now : Int) (days : Nat) (tbl : List MarkerRow),
      (Db.cleanupOldEntries now days tbl).1 =
        tbl.filter (fun r => !(decide (r.2 < now - (days : Int) * 86400000))) ∧
      (∀ r : MarkerRow, r ∈ (Db.cleanupOldEntries now days tbl).1 ↔
        r ∈ tbl ∧ now - (days : Int) * 86400000 ≤ r.2) ∧
      (Db.cleanupOldEntries now days tbl).2 = none) ∧
    (∀ now : Int, ("A", now - 8 * 86400000) ∉
      (Db.cleanupOldEntries now 7
        [("A", now - 8 * 86400000), ("B", now - 6 * 86400000)]).1) ∧
    (∀ now : Int, ("B", now - 6 * 86400000) ∈
      (Db.cleanupOldEntries now 7
        [("A", now - 8 * 86400000), ("B", now - 6 * 86400000)]).1) := by
  have hmain : ∀ (now : Int) (days : Nat) (tbl : List MarkerRow),
      (Db.cleanupOldEntries now days tbl).1 =
        tbl.filter (fun r => !(decide (r.2 < now - (days : Int) * 86400000))) ∧
      (∀ r : MarkerRow, r ∈ (Db.cleanupOldEntries now days tbl).1 ↔
        r ∈ tbl ∧ now - (days : Int) * 86400000 ≤ r.2) ∧
      (Db.cleanupOldEntries now days tbl).2 = none := by
    intro now days tbl
    refine ⟨by norm_num [Db.cleanupOldEntries], ?_, rfl⟩
    intro r
    simp only [Db.cleanupOldEntries, List.mem_filter, Bool.not_eq_eq_eq_not,
      Bool.not_true, decide_eq_false_iff_not, not_lt]
    norm_num
  refine ⟨hmain, ?_, ?_⟩
  · intro now
    rw [(hmain now 7 _).2.1]
    intro hmem
    have := hmem.2
    omega
  · intro now
    rw [(hmain now 7 _).2.1]
    refine ⟨by simp, by omega⟩

/-- C5 counterexample: at `now = 10^12` the purge removes exactly one marker
(the 8-day-old one), yet the call returns `none` rather than the removed count
`1`, so the claim's "returns the count removed" is false. -/
theorem purgeExpired_claim_cex :
    (Db.cleanupOldEntries 1000000000000 7
        [("A", 1000000000000 - 8 * 86400000),
         ("B", 1000000000000 - 6 * 86400000)]).1 =
      [("B", 1000000000000 - 6 * 86400000)] ∧
    (Db.cleanupOldEntries 1000000000000 7
        [("A", 1000000000000 - 8 * 86400000),
         ("B", 1000000000000 - 6 * 86400000)]).2 = none ∧
    (Db.cleanupOldEntries 1000000000000 7
        [("A", 1000000000000 - 8 * 86400000),
         ("B", 1000000000000 - 6 * 86400000)]).2 ≠ some 1 := by
  refine ⟨by decide, rfl, by decide⟩

/-- C5 witness: the deletion boundary of `purgeExpired_spec` evaluated at
`now = 0`. -/
theorem purgeExpired_spec_witness :
    ("A", (0 : Int) - 8 * 86400000) ∉
      (Db.cleanupOldEntries 0 7
        [("A", (0 : Int) - 8 * 86400000), ("B", (0 : Int) - 6 * 86400000)]).1 ∧
    ("B", (0 : Int) - 6 * 86400000) ∈
      (Db.cleanupOldEntries 0 7
        [("A", (0 : Int) - 8 * 86400000), ("B", (0 : Int) - 6 * 86400000)]).1 :=
  ⟨purgeExpired_spec.2.1 0, purgeExpired_spec.2.2 0⟩

/-! Claim C6 — replace-all atomicity of saveInterests. -/

theorem runTransaction_fail (committed : List InterestRow) (j : Nat) :
    ∀ (steps : List (List InterestRow → List InterestRow)) (i : Nat)
      (work : List InterestRow), i ≤ j → j ≤ i + steps.length →
      Db.runTransaction committed (some j) i steps work = (committed, false) := by
  intro steps
  induction steps with
  | nil =>
    intro i work h1 h2
    have hij : j = i := by simp at h2; omega
    simp [Db.runTransaction, hij]
  | cons s rest ih =>
    intro i work h1 h2
    by_cases he : j = i
    · simp [Db.runTransaction, he]
    · have hne : ¬ (some j = some i) := by simp [he]
      rw [Db.runTransaction, if_neg hne]
      exact ih (i + 1) (s work) (by omega) (by simp at h2 ⊢; omega)

theorem runTransaction_ok (committed : List InterestRow) :
    ∀ (steps : List (List InterestRow → List InterestRow)) (i : Nat)
      (work : List InterestRow),
      Db.runTransaction committed none i steps work =
        (steps.foldl (fun w f => f w) work, true) := by
  intro steps
  induction steps with
  | nil => intro i work; simp [Db.runTransaction]
  | cons s rest ih => intro i work; rw [Db.runTransaction]; simp [ih]

theorem insertSteps_foldl (now : Int) :
    ∀ (l : List String) (work : List InterestRow),
      ((l.map (fun t work => work ++ [(t, now)])).foldl (fun w f => f w) work) =
        work ++ l.map (fun t => (t, now)) := by
  intro l
  induction l with
  | nil => simp
  | cons t rest ih => intro work; simp [ih]

/-- C6: a `saveInterests` call whose transaction fails at any step — the
initial DELETE, any of the INSERTs, or the final COMMIT — rolls back and leaves
the committed interest set exactly as it was (never a mix, never a partial new
set), while a call with no failure commits exactly the new terms. -/
theorem replaceInterests_atomic (now : Int) (interests : List String)
    (committed : List InterestRow) :
    (∀ i : Nat, i ≤ interests.length + 1 →
      Db.saveInterests now (some i) interests committed = (committed, false)) ∧
    Db.saveInterests now none interests committed =
      (interests.map (fun t => (t, now)), true) := by
  constructor
  · intro i hi
    refine runTransaction_fail committed i _ 0 committed (by omega) ?_
    simp [Db.saveInterestsSteps]
    omega
  · rw [Db.saveInterests, runTransaction_ok, Db.saveInterestsSteps]
    simp [insertSteps_foldl]

/-- C6 witness: a failure during the second INSERT (step index 2) leaves the
original single-row interest set intact. -/
theorem replaceInterests_atomic_witness :
    (2 ≤ (["a", "b"] : List String).length + 1) ∧
    Db.saveInterests 7 (some 2) ["a", "b"] [("old", 0)] = ([("old", 0)], false) :=
  ⟨by decide, (replaceInterests_atomic 7 ["a", "b"] [("old", 0)]).1 2 (by decide)⟩

/-! Claim C7 — correctness of the deduplication gate. -/

theorem lookupMarker_eq_none (markers : List MarkerRow) (sid : String) :
    StoreBacked.lookupMarker markers sid = none ↔ ∀ r ∈ markers, r.1 ≠ sid := by
  simp [StoreBacked.lookupMarker, List.find?_eq_none]

theorem markerTruthy_eq_false (markers : List MarkerRow) (sid : String)
    (h : ∀ r ∈ markers, r.2 ≠ 0) :
    StoreBacked.markerTruthy (StoreBacked.lookupMarker markers sid) = false ↔
      ∀ r ∈ markers, r.1 ≠ sid := by
  rcases hfind : markers.find? (fun r => r.1 == sid) with _ | r
  · have : StoreBacked.lookupMarker markers sid = none := by
      simp [StoreBacked.lookupMarker, hfind]
    rw [this]
    simp only [StoreBacked.markerTruthy, true_iff]
    rw [List.find?_eq_none] at hfind
    simpa using hfind
  · have hmem : r ∈ markers := List.mem_of_find?_eq_some hfind
    have hpred := List.find?_some hfind
    have : StoreBacked.lookupMarker markers sid = some r.2 := by
      simp [StoreBacked.lookupMarker, hfind]
    rw [this]
    simp only [StoreBacked.markerTruthy]
    have hz : (r.2 == 0) = false := by
      simpa using h r hmem
    rw [hz]
    simp only [Bool.not_false]
    constructor
    · intro h'
      exact absurd h' (by simp)
    · intro hall
      have hr : r.1 = sid := by simpa using hpred
      exact absurd hr (hall r hmem)

/-- C7: over any marker mapping whose timestamps are nonzero (every stored
timestamp is a `Date.now()` value), the deduplication gate is a pure filter
that returns, in order (a sublist of the input), exactly the candidates whose
id carries no marker. -/
theorem dedupeGate_correct (stories : List Story) (markers : List MarkerRow)
    (h : ∀ r ∈ markers, r.2 ≠ 0) :
    (StoreBacked.dedupeFilter markers stories).Sublist stories ∧
    ∀ s : Story, s ∈ StoreBacked.dedupeFilter markers stories ↔
      s ∈ stories ∧ ∀ r ∈ markers, r.1 ≠ s.objectID := by
  refine ⟨List.filter_sublist _, ?_⟩
  intro s
  rw [StoreBacked.dedupeFilter, List.mem_filter, Bool.not_eq_eq_eq_not,
    Bool.not_true, markerTruthy_eq_false markers s.objectID h]

/-- C7 witness: with markers for A and B and candidates A, B, C, the gate
returns exactly C. -/
theorem dedupeGate_correct_witness :
    (∀ r ∈ c7Markers, r.2 ≠ (0 : Int)) ∧
    ((StoreBacked.dedupeFilter c7Markers c7Stories).Sublist c7Stories ∧
      ∀ s : Story, s ∈ StoreBacked.dedupeFilter c7Markers c7Stories ↔
        s ∈ c7Stories ∧ ∀ r ∈ c7Markers, r.1 ≠ s.objectID) ∧
    StoreBacked.dedupeFilter c7Markers c7Stories = [⟨"C", "c", none, 0⟩] :=
  ⟨by decide, dedupeGate_correct c7Stories c7Markers (by decide), by decide⟩

/-! Claim C1 — quota stop of the digest assembler. -/

theorem processLoop_allAccepted (classify : Story → Bool) (quota : Nat)
    (now : Int) :
    ∀ (cands : List Story) (acc : List Story) (markers : List MarkerRow),
      (∀ s ∈ cands, classify s = true) →
      StoreBacked.processLoop classify quota now cands acc markers =
        (acc ++ cands.take (quota - acc.length),
         (cands.take (quota - acc.length)).foldl
           (fun ms s => Db.markStoryAsProcessed now s.objectID ms) markers) := by
  intro cands
  induction cands with
  | nil => intro acc markers _; simp [StoreBacked.processLoop]
  | cons s rest ih =>
    intro acc markers h
    by_cases hq : quota ≤ acc.length
    · have h0 : quota - acc.length = 0 := Nat.sub_eq_zero_of_le hq
      simp [StoreBacked.processLoop, hq, h0]
    · have hs : classify s = true := h s (by simp)
      have hrest : ∀ x ∈ rest, classify x = true := fun x hx => h x (by simp [hx])
      have htake : quota - acc.length = (quota - (acc.length + 1)) + 1 := by omega
      rw [StoreBacked.processLoop, if_neg hq, hs, if_pos rfl,
        ih (acc ++ [s]) (Db.markStoryAsProcessed now s.objectID markers) hrest,
        htake, List.take_succ_cons]
      simp [List.length_append]

theorem foldMark_fresh (now : Int) :
    ∀ (l : List Story) (markers : List MarkerRow),
      (l.map Story.objectID).Nodup →
      (∀ s ∈ l, ∀ r ∈ markers, r.1 ≠ s.objectID) →
      l.foldl (fun ms s => Db.markStoryAsProcessed now s.objectID ms) markers =
        markers ++ l.map (fun s => (s.objectID, now)) := by
  intro l
  induction l with
  | nil => intro markers _ _; simp
  | cons s rest ih =>
    intro markers hnd hfresh
    have hmark : Db.markStoryAsProcessed now s.objectID markers =
        markers ++ [(s.objectID, now)] :=
      markStoryAsProcessed_of_fresh now s.objectID markers
        (fun r hr => hfresh s (by simp) r hr)
    rw [List.foldl_cons, hmark,
      ih (markers ++ [(s.objectID, now)]) (by simpa using hnd.of_cons) ?_]
    · simp
    · intro x hx r hr
      rcases List.mem_append.1 hr with h1 | h1
      · exact hfresh x (by simp [hx]) r h1
      · have hrq : r = (s.objectID, now) := by simpa using h1
        have hne : s.objectID ≠ x.objectID := by
          have hnotin : s.objectID ∉ rest.map Story.objectID :=
            (List.nodup_cons.1 (by simpa using hnd)).1
          intro he
          exact hnotin (he ▸ List.mem_map_of_mem Story.objectID hx)
        simpa [hrq] using hne

/-- C1: when every candidate classifies as accepted and at least
`maxRelevantStories` (the spec's default quota, 10) candidates with distinct
ids are available, the store-backed loop processes exactly the first 10
candidates: those 10 are the digest (enriched) entries, exactly they are
marked processed, and no remaining candidate receives any marker. -/
theorem quotaStop (classify : Story → Bool) (now : Int) (cands : List Story)
    (hacc : ∀ s ∈ cands, classify s = true)
    (hlen : StoreBacked.maxRelevantStories ≤ cands.length)
    (hnd : (cands.map Story.objectID).Nodup) :
    StoreBacked.processLoop classify StoreBacked.maxRelevantStories now
        cands [] [] =
      (cands.take StoreBacked.maxRelevantStories,
       (cands.take StoreBacked.maxRelevantStories).map
         (fun s => (s.objectID, now))) ∧
    (cands.take StoreBacked.maxRelevantStories).length =
      StoreBacked.maxRelevantStories ∧
    ∀ s ∈ cands.drop StoreBacked.maxRelevantStories,
      ∀ r ∈ (StoreBacked.processLoop classify StoreBacked.maxRelevantStories
          now cands [] []).2, r.1 ≠ s.objectID := by
  have hndtake : ((cands.take StoreBacked.maxRelevantStories).map
      Story.objectID).Nodup := by
    rw [List.map_take]
    exact hnd.sublist (List.take_sublist _ _)
  have hrun : StoreBacked.processLoop classify StoreBacked.maxRelevantStories
      now cands [] [] =
      (cands.take StoreBacked.maxRelevantStories,
       (cands.take StoreBacked.maxRelevantStories).map
         (fun s => (s.objectID, now))) := by
    rw [processLoop_allAccepted classify StoreBacked.maxRelevantStories now
      cands [] [] hacc]
    simp only [List.length_nil, Nat.sub_zero, List.nil_append]
    rw [foldMark_fresh now (cands.take StoreBacked.maxRelevantStories) []
      hndtake (by simp)]
    simp
  refine ⟨hrun, ?_, ?_⟩
  · rw [List.length_take]
    omega
  · intro s hs r hr
    rw [hrun] at hr
    have hr1 : r.1 ∈ (cands.take StoreBacked.maxRelevantStories).map
        Story.objectID := by
      rcases List.mem_map.1 hr with ⟨x, hx, hxr⟩
      exact hxr ▸ List.mem_map_of_mem Story.objectID hx
    have hs1 : s.objectID ∈ (cands.drop StoreBacked.maxRelevantStories).map
        Story.objectID :=
      List.mem_map_of_mem Story.objectID hs
    have hdisj : ((cands.take StoreBacked.maxRelevantStories).map
        Story.objectID).Disjoint ((cands.drop StoreBacked.maxRelevantStories).map
        Story.objectID) := by
      have hsplit : (cands.map Story.objectID) =
          (cands.take StoreBacked.maxRelevantStories).map Story.objectID ++
          (cands.drop StoreBacked.maxRelevantStories).map Story.objectID := by
        rw [← List.map_append, List.take_append_drop]
      exact ((List.nodup_append.1 (hsplit ▸ hnd)).2).2
    intro he
    exact hdisj hr1 (he ▸ hs1)

/-- C1 witness: 20 distinct candidates, a classifier accepting everything, and
the default quota: exactly the first 10 are accepted and marked. -/
theorem quotaStop_witness :
    (∀ s ∈ c1Stories, (fun _ : Story => true) s = true) ∧
    StoreBacked.maxRelevantStories ≤ c1Stories.length ∧
    (c1Stories.map Story.objectID).Nodup ∧
    (StoreBacked.processLoop (fun _ => true) StoreBacked.maxRelevantStories 0
        c1Stories [] [] =
      (c1Stories.take StoreBacked.maxRelevantStories,
       (c1Stories.take StoreBacked.maxRelevantStories).map
         (fun s => (s.objectID, (0 : Int)))) ∧
      (c1Stories.take StoreBacked.maxRelevantStories).length =
        StoreBacked.maxRelevantStories ∧
      ∀ s ∈ c1Stories.drop StoreBacked.maxRelevantStories,
        ∀ r ∈ (StoreBacked.processLoop (fun _ => true)
            StoreBacked.maxRelevantStories 0 c1Stories [] []).2,
          r.1 ≠ s.objectID) :=
  ⟨by decide, by decide, by decide,
   quotaStop (fun _ => true) 0 c1Stories (by decide) (by decide) (by decide)⟩

/-! Claim C2 — the feedback window of the classifier prompt. -/

theorem lastFive_length (l : List FeedbackItem) :
    (lastFive l).length = min 5 l.length := by
  simp only [lastFive, List.length_drop]
  omega

theorem lastFive_suffix (l : List FeedbackItem) : lastFive l <:+ l :=
  List.drop_suffix _ _

theorem lastFive_mostRecent (l : List FeedbackItem)
    (hsort : l.Pairwise (fun a b => a.timestamp ≤ b.timestamp)) :
    ∀ x ∈ l, x ∉ lastFive l →
      ∀ y ∈ lastFive l, x.timestamp ≤ y.timestamp := by
  intro x hx hnx y hy
  have hsplit : l = l.take (l.length - 5) ++ lastFive l :=
    (List.take_append_drop _ _).symm
  have hx' : x ∈ l.take (l.length - 5) := by
    rcases List.mem_append.1 (hsplit ▸ hx) with h1 | h1
    · exact h1
    · exact absurd h1 hnx
  have := (List.pairwise_append.1 (hsplit ▸ hsort)).2.2
  exact this x hx' y hy

theorem lastFive_of_seven (l : List FeedbackItem) (h : l.length = 7) :
    lastFive l = l.drop 2 := by
  simp [lastFive, h]

/-- C2 (amended): the file-based variant's prompt construction uses, for each
feedback polarity, the last five records of the creation-time-ascending list —
which, for a list sorted by creation time, are exactly the at-most-five most
recently created records, kept in chronological order, every excluded record
being no newer than any included one; with seven positive records exactly the
five most recent remain and the two oldest are dropped.  The store-backed
variant applies no window: its prompt is the file-based one computed over the
full lists. -/
theorem feedbackWindow (fb : Feedback) :
    (fb.positive.Pairwise (fun a b => a.timestamp ≤ b.timestamp) →
      (lastFive fb.positive).length = min 5 fb.positive.length ∧
      lastFive fb.positive <:+ fb.positive ∧
      (∀ x ∈ fb.positive, x ∉ lastFive fb.positive →
        ∀ y ∈ lastFive fb.positive, x.timestamp ≤ y.timestamp) ∧
      (fb.positive.length = 7 →
        lastFive fb.positive = fb.positive.drop 2)) ∧
    (fb.negative.Pairwise (fun a b => a.timestamp ≤ b.timestamp) →
      (lastFive fb.negative).length = min 5 fb.negative.length ∧
      lastFive fb.negative <:+ fb.negative ∧
      (∀ x ∈ fb.negative, x ∉ lastFive fb.negative →
        ∀ y ∈ lastFive fb.negative, x.timestamp ≤ y.timestamp) ∧
      (fb.negative.length = 7 →
        lastFive fb.negative = fb.negative.drop 2)) ∧
    FileBased.formatFeedbackExamples fb =
      StoreBacked.formatFeedbackExamples
        ⟨lastFive fb.positive, lastFive fb.negative⟩ := by
  refine ⟨fun hs => ⟨lastFive_length _, lastFive_suffix _,
      lastFive_mostRecent _ hs, lastFive_of_seven _⟩,
    fun hs => ⟨lastFive_length _, lastFive_suffix _,
      lastFive_mostRecent _ hs, lastFive_of_seven _⟩, ?_⟩
  have hp : (lastFive fb.positive).length > 0 ↔ fb.positive.length > 0 := by
    rw [lastFive_length]; omega
  have hn : (lastFive fb.negative).length > 0 ↔ fb.negative.length > 0 := by
    rw [lastFive_length]; omega
  rw [FileBased.formatFeedbackExamples, StoreBacked.formatFeedbackExamples]
  by_cases h1 : fb.positive.length > 0 <;> by_cases h2 : fb.negative.length > 0 <;>
    simp [h1, h2, hp.2, hn.2, fun h => (hp.not.2 h : _), fun h => (hn.not.2 h : _)]

/-- C2 witness: seven positive records with ascending creation times — the
window keeps exactly the last five (records 2..6) and drops the two oldest. -/
theorem feedbackWindow_witness :
    (c2Feedback.positive.Pairwise (fun a b => a.timestamp ≤ b.timestamp)) ∧
    ((lastFive c2Feedback.positive).length = min 5 c2Feedback.positive.length ∧
      lastFive c2Feedback.positive <:+ c2Feedback.positive ∧
      (∀ x ∈ c2Feedback.positive, x ∉ lastFive c2Feedback.positive →
        ∀ y ∈ lastFive c2Feedback.positive, x.timestamp ≤ y.timestamp) ∧
      (c2Feedback.positive.length = 7 →
        lastFive c2Feedback.positive = c2Feedback.positive.drop 2)) :=
  ⟨by decide, (feedbackWindow c2Feedback).1 (by decide)⟩

/-- C2 counterexample: on seven positive records the store-backed variant's
prompt construction (the one `checkRelevance` of the store-backed main script
uses) is NOT the prompt built from the five most recent records — it lists all
seven titles — so the claim is false for that classifier. -/
theorem feedbackWindow_cex :
    StoreBacked.formatFeedbackExamples c2Feedback ≠
      StoreBacked.formatFeedbackExamples
        ⟨lastFive c2Feedback.positive, lastFive c2Feedback.negative⟩ ∧
    StoreBacked.formatFeedbackExamples c2Feedback ≠
      FileBased.formatFeedbackExamples c2Feedback ∧
    (exampleLines c2Feedback.positive).length = 7 := by
  refine ⟨by decide, by decide, by decide⟩

/-! Claim C3 — parsing of the oracle's YES/NO verdict. -/

/-- C3 (amended): `accepted` is true iff the uppercased trimmed answer begins
with the three characters YES (a prefix test, not a first-token test); an
answer whose uppercased trimmed form begins with neither YES nor NO yields
`accepted = false`; the reason field is the trimmed answer; and whenever the
first whitespace-delimited token does uppercase to YES the verdict is
accepted. -/
theorem oracleVerdict (content : List Char) :
    ((checkRelevanceVerdict content).1 = true ↔
      ['Y', 'E', 'S'] <+: toUpperChars (trimChars content)) ∧
    (checkRelevanceVerdict content).2 = trimChars content ∧
    (¬ (['Y', 'E', 'S'] <+: toUpperChars (trimChars content)) →
      ¬ (['N', 'O'] <+: toUpperChars (trimChars content)) →
      (checkRelevanceVerdict content).1 = false) ∧
    (toUpperChars (firstTokenChars content) = ['Y', 'E', 'S'] →
      (checkRelevanceVerdict content).1 = true) := by
  have h1 : (checkRelevanceVerdict content).1 =
      (['Y', 'E', 'S']).isPrefixOf (toUpperChars (trimChars content)) := rfl
  have hiff : (checkRelevanceVerdict content).1 = true ↔
      ['Y', 'E', 'S'] <+: toUpperChars (trimChars content) := by
    rw [h1]
    exact isPrefixOf_iff_prefixHN _ _
  refine ⟨hiff, rfl, ?_, ?_⟩
  · intro hny _
    cases hb : (checkRelevanceVerdict content).1 with
    | false => rfl
    | true => exact absurd (hiff.1 hb) hny
  · intro htok
    rw [hiff]
    have htok' : toUpperChars
        ((trimChars content).takeWhile (fun c => !c.isWhitespace)) =
        ['Y', 'E', 'S'] := htok
    have hsplit : trimChars content =
        (trimChars content).takeWhile (fun c => !c.isWhitespace) ++
          (trimChars content).dropWhile (fun c => !c.isWhitespace) :=
      (List.takeWhile_append_dropWhile _ _).symm
    have hupper : toUpperChars (trimChars content) =
        ['Y', 'E', 'S'] ++
          toUpperChars ((trimChars content).dropWhile (fun c => !c.isWhitespace)) := by
      conv_lhs => rw [hsplit]
      simp only [toUpperChars, List.map_append]
      simp only [toUpperChars] at htok'
      rw [htok']
    rw [hupper]
    exact List.prefix_append _ _

/-- C3 witness: "Maybe so" begins with neither YES nor NO and is rejected;
"yes indeed" has first token "yes", which uppercases to YES, and is
accepted. -/
theorem oracleVerdict_witness :
    (¬ (['Y', 'E', 'S'] <+: toUpperChars (trimChars ("Maybe so".toList))) ∧
      ¬ (['N', 'O'] <+: toUpperChars (trimChars ("Maybe so".toList))) ∧
      (checkRelevanceVerdict ("Maybe so".toList)).1 = false) ∧
    (toUpperChars (firstTokenChars ("yes indeed".toList)) = ['Y', 'E', 'S'] ∧
      (checkRelevanceVerdict ("yes indeed".toList)).1 = true) :=
  ⟨⟨by decide, by decide,
    (oracleVerdict ("Maybe so".toList)).2.2.1 (by decide) (by decide)⟩,
   ⟨by decide, (oracleVerdict ("yes indeed".toList)).2.2.2 (by decide)⟩⟩

/-- C3 counterexample: the oracle answer "YESTERDAY in tech" is accepted by the
code (uppercased prefix test) although its first token does not match YES, so
the claim's "accepted iff the first token case-insensitively matches YES" is
false; and the answer "  YES ok " is not retained verbatim as the reason — it
is trimmed first. -/
theorem oracleVerdict_cex :
    (checkRelevanceVerdict ("YESTERDAY in tech".toList)).1 = true ∧
    toUpperChars (firstTokenChars ("YESTERDAY in tech".toList)) ≠
      ['Y', 'E', 'S'] ∧
    (checkRelevanceVerdict ("  YES ok ".toList)).2 ≠ "  YES ok ".toList := by
  refine ⟨by decide, by decide, by decide⟩

/-! Claim C8 — validation of submitFeedback. -/

/-- C8: a rating that is not exactly positive or negative (such as "maybe") is
rejected with a 400 response, and a request missing `story` or `rating` is
rejected with the missing-parameters 400 response; in both cases the feedback
table is left untouched — no record is appended. -/
theorem submitFeedback_validation (now : Int) (insertOk : Bool)
    (decode : String → String) (q : Server.FeedbackQuery)
    (tbl : List FeedbackRow) :
    (q.rating = some "maybe" →
      (Server.handleFeedback now insertOk decode q tbl).2 = tbl ∧
      (Server.handleFeedback now insertOk decode q tbl).1.status = 400) ∧
    ((q.story = none ∨ q.rating = none) →
      Server.handleFeedback now insertOk decode q tbl = (.missingParams, tbl)) := by
  constructor
  · intro hr
    rcases hqs : q.story with _ | s
    · simp [Server.handleFeedback, hqs, Server.paramTruthy,
        Server.FeedbackResponse.status]
    · by_cases hs : s = ""
      · subst hs
        simp [Server.handleFeedback, hqs, Server.paramTruthy,
          Server.FeedbackResponse.status]
      · simp [Server.handleFeedback, hqs, hr, Server.paramTruthy,
          Server.FeedbackResponse.status, hs]
  · intro h
    rcases h with h | h <;>
      simp [Server.handleFeedback, h, Server.paramTruthy]

/-- C8 witness: rating "maybe" with a present story id is rejected without a
write, and a missing story id with rating "positive" is rejected. -/
theorem submitFeedback_validation_witness :
    ((some "maybe" : Option String) = some "maybe") ∧
    ((Server.handleFeedback 0 true id ⟨some "123", some "maybe", none, none⟩
        []).2 = ([] : List FeedbackRow) ∧
      (Server.handleFeedback 0 true id ⟨some "123", some "maybe", none, none⟩
        []).1.status = 400) ∧
    (((none : Option String) = none ∨
        (some "positive" : Option String) = none) ∧
      Server.handleFeedback 0 true id ⟨none, some "positive", some "T", none⟩
        [] = (.missingParams, [])) :=
  ⟨rfl,
   (submitFeedback_validation 0 true id ⟨some "123", some "maybe", none, none⟩
     []).1 rfl,
   ⟨Or.inl rfl,
    (submitFeedback_validation 0 true id ⟨none, some "positive", some "T", none⟩
      []).2 (Or.inl rfl)⟩⟩

/-! Claim C9 — success acknowledgement despite a store failure. -/

/-- C9: a validated `/feedback` request is answered with the success page no
matter whether the underlying insert works, because `saveFeedback` swallows
store errors; when the insert fails the table is unchanged, so the submission
is acknowledged without any record having been written. -/
theorem feedbackAck_despiteStoreFailure (now : Int) (insertOk : Bool)
    (decode : String → String) (q : Server.FeedbackQuery)
    (tbl : List FeedbackRow) (story rating : String)
    (hqs : q.story = some story) (hne : story ≠ "")
    (hqr : q.rating = some rating)
    (hval : rating = "positive" ∨ rating = "negative") :
    (Server.handleFeedback now insertOk decode q tbl).1 =
      .thanks (rating == "positive") ∧
    (Server.handleFeedback now false decode q tbl).2 = tbl := by
  rcases hval with h | h <;> subst h <;>
    simp [Server.handleFeedback, hqs, hqr, Server.paramTruthy, hne,
      Db.saveFeedback]

/-- C9 witness: a valid positive submission against a failing store still
yields the thanks page and writes nothing. -/
theorem feedbackAck_despiteStoreFailure_witness :
    ((⟨some "42", some "positive", some "T", some "U"⟩ :
        Server.FeedbackQuery).story = some "42") ∧
    ("42" : String) ≠ "" ∧
    ((⟨some "42", some "positive", some "T", some "U"⟩ :
        Server.FeedbackQuery).rating = some "positive") ∧
    (("positive" : String) = "positive" ∨ ("positive" : String) = "negative") ∧
    ((Server.handleFeedback 0 false id
        ⟨some "42", some "positive", some "T", some "U"⟩ []).1 =
      .thanks ("positive" == "positive") ∧
      (Server.handleFeedback 0 false id
        ⟨some "42", some "positive", some "T", some "U"⟩ []).2 = []) :=
  ⟨rfl, by decide, rfl, Or.inl rfl,
   feedbackAck_despiteStoreFailure 0 false id
     ⟨some "42", some "positive", some "T", some "U"⟩ [] "42" "positive"
     rfl (by decide) rfl (Or.inl rfl)⟩

/-! Claim C10 — the partition performed by loadFeedback. -/

theorem loadFeedback_go :
    ∀ (rows : List FeedbackRow) (fb : Feedback),
      rows.foldl Db.loadFeedbackStep fb =
        ⟨fb.positive ++
          (rows.filter (fun r => r.rating == "positive")).map feedbackItemOfRow,
         fb.negative ++
          (rows.filter (fun r => r.rating == "negative")).map
            feedbackItemOfRow⟩ := by
  intro rows
  induction rows with
  | nil => intro fb; simp
  | cons r rs ih =>
    intro fb
    rw [List.foldl_cons, ih]
    by_cases h1 : r.rating = "positive"
    · simp [Db.loadFeedbackStep, beq_iff_eq, h1, List.filter_cons]
    · by_cases h2 : r.rating = "negative"
      · simp [Db.loadFeedbackStep, beq_iff_eq, h1, h2, List.filter_cons]
      · simp [Db.loadFeedbackStep, beq_iff_eq, h1, h2, List.filter_cons]

theorem filter_or_length (rows : List FeedbackRow) :
    (rows.filter
        (fun r => r.rating == "positive" || r.rating == "negative")).length =
      (rows.filter (fun r => r.rating == "positive")).length +
      (rows.filter (fun r => r.rating == "negative")).length := by
  induction rows with
  | nil => rfl
  | cons r rs ih =>
    by_cases h1 : r.rating = "positive"
    · simp [List.filter_cons, beq_iff_eq, h1, ih]
      omega
    · by_cases h2 : r.rating = "negative"
      · simp [List.filter_cons, beq_iff_eq, h1, h2, ih]
        omega
      · simp [List.filter_cons, beq_iff_eq, h1, h2, ih]

/-- C10: `loadFeedback` partitions the stored rows into exactly the
positive-rated and negative-rated records, in stored (creation-ascending)
order; rows with any other rating appear in neither list, so they contribute
neither to the classifier's examples nor to the health endpoint's counts,
which are precisely the two list lengths. -/
theorem loadFeedback_partition (rows : List FeedbackRow) :
    (Db.loadFeedback rows).positive =
      (rows.filter (fun r => r.rating == "positive")).map feedbackItemOfRow ∧
    (Db.loadFeedback rows).negative =
      (rows.filter (fun r => r.rating == "negative")).map feedbackItemOfRow ∧
    (Db.loadFeedback rows).positive.length +
        (Db.loadFeedback rows).negative.length =
      (rows.filter
        (fun r => r.rating == "positive" || r.rating == "negative")).length ∧
    Server.healthCounts rows =
      ((Db.loadFeedback rows).positive.length,
       (Db.loadFeedback rows).negative.length) := by
  have hgo := loadFeedback_go rows ⟨[], []⟩
  have hpos : (Db.loadFeedback rows).positive =
      (rows.filter (fun r => r.rating == "positive")).map feedbackItemOfRow := by
    rw [Db.loadFeedback, hgo]
    simp
  have hneg : (Db.loadFeedback rows).negative =
      (rows.filter (fun r => r.rating == "negative")).map feedbackItemOfRow := by
    rw [Db.loadFeedback, hgo]
    simp
  refine ⟨hpos, hneg, ?_, rfl⟩
  rw [hpos, hneg, List.length_map, List.length_map, filter_or_length]

end HNSum
